import Mathlib

/-!
# Verification of the auto-coin trading core

A shallow embedding, in Lean 4, of the core of the `auto-coin` repository:

* `modules/trading_engine.py` — market-context extraction (`get_signal_context`,
  `calculate_rsi`), signal generation (`generate_signal`), trade execution and
  the position ledger (`execute_trade`, `_reset_daily_data`, `_load_trading_data`);
* `modules/learning_system.py` — trade-record store (`record_trade`,
  `update_trade_result`) and the adaptive-parameter feedback loop
  (`_analyze_recent_performance`, `_optimize_parameters`, `_perform_learning`,
  `_save_adaptive_params`);
* `scripts/real_upbit_analyzer.py` — idempotent exchange-order mirroring
  (`sync_trading_history`);
* `scripts/auto_optimizer.py` — `_adjust_signal_parameters`.

Python floats are modelled as rationals (ℚ); Python `datetime` values as natural
numbers (a day index for dates, a minute index for timestamps); SQLite tables as
Lean lists of rows; Python dicts keyed by ticker as association lists.  Fallible
external calls (exchange API, file I0) are modelled as `Option` inputs.  The one
place the code computes an irrational quantity — numpy's standard deviation
inside the Bollinger-band computation — is passed in as an explicit parameter,
since every claim under verification is independent of its value.
-/

namespace AutoCoin

/-! ## Market context (`trading_engine.get_signal_context`, `calculate_rsi`) -/

/-- Coarse trend classification returned by `get_signal_context`. -/
inductive MarketState where
  | BULL
  | BEAR
  | SIDEWAYS
  | UNKNOWN
deriving DecidableEq, Repr

/-- The `{market_state, rsi, bollinger_position}` dict returned by
`TradingEngine.get_signal_context`. -/
structure SignalContext where
  market_state : MarketState
  rsi : ℚ
  bollinger_position : ℚ
deriving DecidableEq, Repr

/-- Mean of a list of rationals (`numpy .mean()`); `0` on the empty list,
which the call sites never hit. -/
def listMean (xs : List ℚ) : ℚ := xs.sum / xs.length

/-- The last `n` elements of a list (Python slice `prices[-n:]`). -/
def lastN (xs : List ℚ) (n : ℕ) : List ℚ := xs.drop (xs.length - n)

/-- `TradingEngine.calculate_rsi(prices, period)`: Wilder-style RSI.
Returns 50 when fewer than `period + 1` prices are available; builds the
gain/loss series from consecutive deltas, averages the last `period` of each,
returns 100 when the average loss is zero, else `100 - 100 / (1 + rs)`. -/
def calculate_rsi (prices : List ℚ) (period : ℕ := 14) : ℚ :=
  if prices.length < period + 1 then 50
  else
    let deltas := (prices.zip (prices.drop 1)).map (fun p => p.2 - p.1)
    let gains := deltas.map (fun d => if 0 ≤ d then d else 0)
    let losses := deltas.map (fun d => if 0 ≤ d then 0 else |d|)
    let avg_gain := (lastN gains period).sum / period
    let avg_loss := (lastN losses period).sum / period
    if avg_loss = 0 then 100
    else
      let rs := avg_gain / avg_loss
      100 - 100 / (1 + rs)

/-- The Bollinger-band position computed in `get_signal_context`:
`(current - lower) / (upper - lower)` with `upper/lower = ma20 ± 2·std20`,
`0.5` when the bands collapse.  `std20` is the standard deviation of the last
20 prices, passed in explicitly (the code computes it with numpy in floating
point; it is irrational in general). -/
def bollingerPositionRaw (current_price ma20 std20 : ℚ) : ℚ :=
  let upper_band := ma20 + 2 * std20
  let lower_band := ma20 - 2 * std20
  if upper_band ≠ lower_band then
    (current_price - lower_band) / (upper_band - lower_band)
  else 0.5

/-- The market-state comparison in `get_signal_context`: `BULL` when
`ma5 > ma10 > ma20`, `BEAR` when `ma5 < ma10 < ma20`, else `SIDEWAYS`. -/
def classifyMarket (ma5 ma10 ma20 : ℚ) : MarketState :=
  if ma5 > ma10 ∧ ma10 > ma20 then .BULL
  else if ma5 < ma10 ∧ ma10 < ma20 then .BEAR
  else .SIDEWAYS

/-- `TradingEngine.get_signal_context(ticker)`.  `fetch` is the result of
`pyupbit.get_ohlcv(...)`: `none` when the call raised or returned `None`
(the code catches every exception and returns the sentinel), `some prices`
the close-price series otherwise.  `std20` is the standard deviation of the
last 20 prices (see `bollingerPositionRaw`). -/
def get_signal_context (fetch : Option (List ℚ)) (std20 : ℚ) : SignalContext :=
  match fetch with
  | none => { market_state := .UNKNOWN, rsi := 50, bollinger_position := 0.5 }
  | some prices =>
    if prices.length < 50 then
      { market_state := .UNKNOWN, rsi := 50, bollinger_position := 0.5 }
    else
      let current_price := prices.getLast? |>.getD 0
      let rsi := calculate_rsi prices
      let ma20 := listMean (lastN prices 20)
      let bollinger_position := bollingerPositionRaw current_price ma20 std20
      let ma5 := listMean (lastN prices 5)
      let ma10 := listMean (lastN prices 10)
      { market_state := classifyMarket ma5 ma10 ma20,
        rsi := rsi,
        bollinger_position := max 0 (min 1 bollinger_position) }

/-! ## Adaptive parameters (`learning_system.LearningSystem.adaptive_params`) -/

/-- The `adaptive_params` dict of `LearningSystem`. -/
structure AdaptiveParams where
  rsi_buy_threshold : ℚ
  rsi_sell_threshold : ℚ
  bollinger_buy_ratio : ℚ
  bollinger_sell_ratio : ℚ
  min_profit_target : ℚ
  stop_loss_threshold : ℚ
deriving DecidableEq, Repr

/-- The defaults seeded in `LearningSystem.__init__`. -/
def defaultParams : AdaptiveParams :=
  { rsi_buy_threshold := 30,
    rsi_sell_threshold := 70,
    bollinger_buy_ratio := 0.2,
    bollinger_sell_ratio := 0.8,
    min_profit_target := 0.02,
    stop_loss_threshold := -0.05 }

/-! ## Signal generation (`trading_engine.generate_signal`) -/

/-- The signal strings returned by `TradingEngine.generate_signal`. -/
inductive Signal where
  | PREMIUM_BUY
  | SELECTIVE_BUY
  | EMERGENCY_SELL
  | CONSERVATIVE_SELL
  | HOLD
deriving DecidableEq, Repr

/-- `action.endswith("BUY")`. -/
def Signal.isBuy : Signal → Bool
  | .PREMIUM_BUY | .SELECTIVE_BUY => true
  | _ => false

/-- `action.endswith("SELL")`. -/
def Signal.isSell : Signal → Bool
  | .EMERGENCY_SELL | .CONSERVATIVE_SELL => true
  | _ => false

/-- `TradingEngine.generate_signal(ticker)`, as a function of the adaptive
parameters, the extracted signal context, and whether `ticker` is currently
in `self.positions`.  Mirrors the code order: both BUY tests run before (and
regardless of) the open-position check; the SELL tests run only when a
position is open. -/
def generate_signal (params : AdaptiveParams) (ctx : SignalContext)
    (hasPosition : Bool) : Signal :=
  if ctx.market_state = .BULL ∧ ctx.rsi < params.rsi_buy_threshold ∧
      ctx.bollinger_position < params.bollinger_buy_ratio then
    .PREMIUM_BUY
  else if ctx.rsi < params.rsi_buy_threshold - 5 ∧
      ctx.bollinger_position < params.bollinger_buy_ratio + 0.1 then
    .SELECTIVE_BUY
  else if hasPosition then
    if ctx.rsi > params.rsi_sell_threshold ∨ ctx.market_state = .BEAR then
      .EMERGENCY_SELL
    else if ctx.bollinger_position > 0.8 then
      .CONSERVATIVE_SELL
    else .HOLD
  else .HOLD

/-! ## Profit-rate computation (`trading_engine.execute_trade`, SELL branch) -/

/-- The fee-adjusted profit rate computed in the SELL branch of
`execute_trade`: `actual_buy_price = entry_price * (1 + commission_rate)`,
`actual_sell_price = current_price * (1 - commission_rate)`,
`(actual_sell_price - actual_buy_price) / actual_buy_price`. -/
def profitRate (entry_price current_price commission_rate : ℚ) : ℚ :=
  let actual_buy_price := entry_price * (1 + commission_rate)
  let actual_sell_price := current_price * (1 - commission_rate)
  (actual_sell_price - actual_buy_price) / actual_buy_price

/-- The spec's formula, transcribed from its words:
`(sellPrice·(1−fee) − buyPrice·(1+fee)) / (buyPrice·(1+fee))`. -/
def specProfitRate (sellPrice buyPrice fee : ℚ) : ℚ :=
  (sellPrice * (1 - fee) - buyPrice * (1 + fee)) / (buyPrice * (1 + fee))

/-! ## Trade-history store (`learning_system.record_trade`, `update_trade_result`)

The SQLite `trades` table is a list of rows; `timestamp` is a minute index
(the code stores ISO strings and compares them for equality/order, which on a
single clock is order-isomorphic to comparing the instants). -/

/-- The `action` column (only these two values are ever inserted). -/
inductive TradeAction where
  | BUY
  | SELL
deriving DecidableEq, Repr

/-- One row of the `trades` table / one `TradeRecord` dataclass instance.
`success` is `none` (SQL NULL) until the matching SELL finalises it. -/
structure TradeRow where
  timestamp : ℕ
  coin : String
  action : TradeAction
  signal_type : Signal
  price : ℚ
  amount : ℚ
  market_state : MarketState
  rsi : ℚ
  bollinger_position : ℚ
  success : Option Bool := none
  profit_rate : Option ℚ := none
  hold_duration : Option ℕ := none
deriving DecidableEq, Repr

/-- `LearningSystem.record_trade`: an `INSERT`, i.e. an append. -/
def record_trade (table : List TradeRow) (r : TradeRow) : List TradeRow :=
  table ++ [r]

/-- `LearningSystem.update_trade_result`: the SQL
`UPDATE trades SET success, profit_rate, hold_duration
 WHERE coin = ? AND action = 'BUY' AND timestamp = ? AND success IS NULL`.
The stored `success` is `1 if success else 0`, i.e. always non-NULL after
the update. -/
def update_trade_result (table : List TradeRow) (coin : String)
    (buy_timestamp : ℕ) (success : Bool) (profit_rate : ℚ)
    (hold_duration : ℕ) : List TradeRow :=
  table.map (fun r =>
    if r.coin = coin ∧ r.action = .BUY ∧ r.timestamp = buy_timestamp ∧
        r.success = none then
      { r with success := some success, profit_rate := some profit_rate,
               hold_duration := some hold_duration }
    else r)

/-! ## Feedback loop (`learning_system._analyze_recent_performance`,
`_optimize_parameters`, `_perform_learning`, `_save_adaptive_params`) -/

/-- One entry of `analysis['rsi_analysis']` / `analysis['bollinger_analysis']`:
`{'rsi'/'bollinger': value, 'success': success, 'profit': profit or 0}`.
`success` keeps the SQLite integer (0/1) read back from the row. -/
structure AnalysisEntry where
  value : ℚ
  success : ℕ
  profit : ℚ
deriving DecidableEq, Repr

/-- The dict returned by `_analyze_recent_performance` (the fields the
optimizer reads).  The empty dict returned when no closed trades exist is
represented by `total_trades = 0` with empty lists — `_optimize_parameters`
treats both identically (`if not performance or performance.get('total_trades', 0)
< min_trades`). -/
structure Performance where
  total_trades : ℕ
  rsi_analysis : List AnalysisEntry
  bollinger_analysis : List AnalysisEntry
deriving DecidableEq, Repr

/-- The SQL filter of `_analyze_recent_performance`:
`WHERE timestamp > ? AND success IS NOT NULL`. -/
def closedTradesSince (table : List TradeRow) (since : ℕ) : List TradeRow :=
  table.filter (fun r => since < r.timestamp ∧ r.success ≠ none)

/-- The 0/1 integer SQLite stores for the `success` column. -/
def successInt (r : TradeRow) : ℕ := if r.success = some true then 1 else 0

/-- `LearningSystem._analyze_recent_performance`: pulls the closed trades in
the window and builds the per-dimension analysis lists.  A row enters
`rsi_analysis` only when its `rsi` is truthy (non-zero) — `if rsi and success
is not None:` — and likewise for `bollinger_position`; `profit` is
`profit_rate or 0`. -/
def analyzeRecentPerformance (table : List TradeRow) (since : ℕ) :
    Performance :=
  let trades := closedTradesSince table since
  { total_trades := trades.length,
    rsi_analysis := (trades.filter (fun r => r.rsi ≠ 0)).map
      (fun r => { value := r.rsi, success := successInt r,
                  profit := r.profit_rate.getD 0 }),
    bollinger_analysis :=
      (trades.filter (fun r => r.bollinger_position ≠ 0)).map
      (fun r => { value := r.bollinger_position, success := successInt r,
                  profit := r.profit_rate.getD 0 }) }

/-- Python's `round` on a value with integral floor/fraction split:
round-half-to-even on the scaled value. -/
def pyRoundInt (q : ℚ) : ℤ :=
  let f := ⌊q⌋
  let r := q - f
  if r < 1 / 2 then f
  else if 1 / 2 < r then f + 1
  else if Even f then f else f + 1

/-- Python's `round(x, ndigits)` over ℚ: scale by `10 ^ ndigits`, round
half-to-even, scale back. -/
def pyRound (q : ℚ) (ndigits : ℕ) : ℚ :=
  (pyRoundInt (q * 10 ^ ndigits) : ℚ) / 10 ^ ndigits

/-- The clamp `max lo (min hi x)` used on every tuned dimension. -/
def clamp (lo hi x : ℚ) : ℚ := max lo (min hi x)

/-- The `optimized` dict built by `_optimize_parameters`: at most the two
tuned keys, each present (`some`) only when that dimension was recomputed. -/
structure Optimized where
  rsi_buy_threshold : Option ℚ := none
  bollinger_buy_ratio : Option ℚ := none
deriving DecidableEq, Repr

/-- `optimized` is Python-truthy iff some key is present. -/
def Optimized.nonempty (o : Optimized) : Bool :=
  o.rsi_buy_threshold.isSome || o.bollinger_buy_ratio.isSome

/-- `LearningSystem._optimize_parameters(performance)`: requires
`min_trades` closed samples; for each dimension takes the mean of the values
among profitable successful entries (at least 5 of them), blends 0.8/0.2 into
the current parameter, clamps to the safe range ([20,40] resp. [0.1,0.3]) and
rounds (1 resp. 2 decimals). -/
def optimize_parameters (min_trades : ℕ) (performance : Performance)
    (params : AdaptiveParams) : Optimized :=
  if performance.total_trades < min_trades then {}
  else
    let successful_buys := (performance.rsi_analysis.filter
      (fun d => d.success = 1 ∧ 0 < d.profit)).map (·.value)
    let rsiOpt : Option ℚ :=
      if 5 ≤ successful_buys.length then
        let avg_successful_rsi := successful_buys.sum / successful_buys.length
        let current_threshold := params.rsi_buy_threshold
        let new_threshold :=
          current_threshold * 0.8 + avg_successful_rsi * 0.2
        some (pyRound (clamp 20 40 new_threshold) 1)
      else none
    let successful_positions := (performance.bollinger_analysis.filter
      (fun d => d.success = 1 ∧ 0 < d.profit)).map (·.value)
    let bollingerOpt : Option ℚ :=
      if 5 ≤ successful_positions.length then
        let avg_successful_position :=
          successful_positions.sum / successful_positions.length
        let current_ratio := params.bollinger_buy_ratio
        let new_ratio := current_ratio * 0.8 + avg_successful_position * 0.2
        some (pyRound (clamp 0.1 0.3 new_ratio) 2)
      else none
    { rsi_buy_threshold := rsiOpt, bollinger_buy_ratio := bollingerOpt }

/-- `self.adaptive_params.update(new_params)`. -/
def applyOptimized (params : AdaptiveParams) (o : Optimized) :
    AdaptiveParams :=
  { params with
    rsi_buy_threshold := o.rsi_buy_threshold.getD params.rsi_buy_threshold,
    bollinger_buy_ratio :=
      o.bollinger_buy_ratio.getD params.bollinger_buy_ratio }

/-- The learning-side state `_perform_learning` touches: the in-memory
`adaptive_params` and the `adaptive_params` SQLite table (a timestamped
append-only list of snapshots; `_save_adaptive_params` is an `INSERT`). -/
structure LearningState where
  params : AdaptiveParams
  store : List (ℕ × AdaptiveParams)
deriving DecidableEq, Repr

/-- `LearningSystem._perform_learning` (the part inside the lock):
analyze recent closed trades, optimize, and — only when `new_params` is
truthy — update the in-memory params and append a full snapshot to the
`adaptive_params` table. -/
def perform_learning (min_trades : ℕ) (table : List TradeRow) (since : ℕ)
    (now : ℕ) (st : LearningState) : LearningState :=
  let performance := analyzeRecentPerformance table since
  let new_params := optimize_parameters min_trades performance st.params
  if new_params.nonempty then
    let params := applyOptimized st.params new_params
    { params := params, store := st.store ++ [(now, params)] }
  else st

/-- `AutoOptimizationEngine._adjust_signal_parameters(data)` from
`scripts/auto_optimizer.py`: when more than 80 % of signals failed, nudges
`rsi_buy_threshold` up by 2 (capped at 35) and `min_profit_target` down by
0.002 (floored at 0.015), writing straight into the learning system's
params. -/
def adjust_signal_parameters (failed_ratio : ℚ) (params : AdaptiveParams) :
    AdaptiveParams :=
  if 0.8 < failed_ratio then
    { params with
      rsi_buy_threshold := min 35 (params.rsi_buy_threshold + 2),
      min_profit_target := max 0.015 (params.min_profit_target - 0.002) }
  else params

/-! ## Position ledger and trade execution (`trading_engine.TradingEngine`) -/

/-- One entry of `self.positions[ticker]`. -/
structure Position where
  entry_price : ℚ
  entry_time : ℕ
  amount : ℚ
  signal_type : Signal
  invest_amount : ℚ
deriving DecidableEq, Repr

/-- Association-list model of the Python dict `self.positions` (insertion
order preserved, as in Python). -/
abbrev Positions := List (String × Position)

/-- `self.positions[ticker]` lookup / `ticker in self.positions`. -/
def Positions.lookup (ps : Positions) (k : String) : Option Position :=
  (List.find? (fun p => p.1 = k) ps).map (·.2)

/-- `self.positions[ticker] = v`: replace in place when the key exists,
append otherwise (Python dict assignment). -/
def Positions.insert (ps : Positions) (k : String) (v : Position) :
    Positions :=
  if List.any ps (fun p => p.1 = k) then
    List.map (fun p => if p.1 = k then (k, v) else p) ps
  else ps ++ [(k, v)]

/-- `del self.positions[ticker]`. -/
def Positions.erase (ps : Positions) (k : String) : Positions :=
  List.filter (fun p => ¬ p.1 = k) ps

/-- Number of entries stored for a given ticker. -/
def Positions.countKey (ps : Positions) (k : String) : ℕ :=
  (List.filter (fun p => p.1 = k) ps).length

/-- The mutable state of `TradingEngine` the claims concern, together with
the learning system's `trades` table that `execute_trade` writes through
`record_trade` / `update_trade_result`.  Dates are day indices, times minute
indices. -/
structure EngineState where
  positions : Positions
  trade_count_today : ℕ
  daily_profit : ℚ
  last_trade_reset : ℕ
  trades : List TradeRow
deriving DecidableEq, Repr

/-- `TradingEngine._reset_daily_data`: zero the daily counters, clear the
positions dict, stamp today. -/
def reset_daily_data (today : ℕ) (st : EngineState) : EngineState :=
  { st with trade_count_today := 0, last_trade_reset := today,
            positions := [], daily_profit := 0 }

/-- The persisted snapshot `trading_data.json` (`_save_trading_data` /
`_load_trading_data`). -/
structure SavedData where
  trade_count_today : ℕ
  last_trade_reset : ℕ
  positions : Positions
  daily_profit : ℚ
deriving DecidableEq, Repr

/-- `TradingEngine._load_trading_data`: `fetch` is `none` when the snapshot
file is missing or any exception occurs while reading/parsing it (both paths
call `_reset_daily_data`); `some d` when it parses.  A snapshot saved on an
earlier day is discarded by `_reset_daily_data`; a same-day snapshot is
restored.  `trades` is the (untouched) learning table, threaded through so
the result is a full `EngineState`. -/
def load_trading_data (today : ℕ) (fetch : Option SavedData)
    (trades : List TradeRow) : EngineState :=
  let blank : EngineState :=
    { positions := [], trade_count_today := 0, daily_profit := 0,
      last_trade_reset := today, trades := trades }
  match fetch with
  | none => reset_daily_data today blank
  | some d =>
    if d.last_trade_reset = today then
      { positions := d.positions, trade_count_today := d.trade_count_today,
        daily_profit := d.daily_profit, last_trade_reset := d.last_trade_reset,
        trades := trades }
    else reset_daily_data today blank

/-- The environment of one `execute_trade` call: the clock, the exchange
responses, and the configuration values (with their code defaults:
`max_daily_trades` 50, `investment_ratio` 0.1, `min_krw_balance` 50000,
`commission_rate` 0.0005).  `current_price` is `none` when
`pyupbit.get_current_price` fails; `order_ok` is whether the market order
returned a non-`None` result; `coin_balance` is `get_balance(coin_symbol)`
in the SELL branch; `signal_context` is the context `get_signal_context`
returns when the BUY branch records its `TradeRecord`. -/
structure TradeEnv where
  today : ℕ
  now : ℕ
  current_price : Option ℚ
  krw_balance : ℚ
  coin_balance : ℚ
  order_ok : Bool
  signal_context : SignalContext
  max_daily_trades : ℕ := 50
  investment_ratio : ℚ := 0.1
  min_krw_balance : ℚ := 50000
  commission_rate : ℚ := 0.0005
deriving DecidableEq, Repr

/-- The body of `TradingEngine.execute_trade(ticker, action)` (production
mode) after the day-rollover check, returning the `success` flag and the
mutated state.  Mirrors the code: the daily-cap / price / minimum-balance
guards; the BUY branch places the order when `krw_balance >= invest_amount`
and on success overwrites `positions[ticker]`, bumps the counter and appends
a BUY `TradeRecord`; the SELL branch requires `ticker in positions`, places
the order when the coin balance exceeds `0.00001`, and on success computes
the fee-adjusted profit rate, finalises the BUY record via
`update_trade_result`, deletes the position and updates both daily
counters. -/
def execute_trade_after_reset (env : TradeEnv) (st : EngineState)
    (ticker : String) (action : Signal) : Bool × EngineState :=
  if env.max_daily_trades ≤ st.trade_count_today then (false, st)
  else
    match env.current_price with
    | none => (false, st)
    | some current_price =>
      if current_price = 0 then (false, st)
      else
        let invest_amount := env.krw_balance * env.investment_ratio
        if env.krw_balance < env.min_krw_balance then (false, st)
        else if action.isBuy then
          if invest_amount ≤ env.krw_balance ∧ env.order_ok then
            let pos : Position :=
              { entry_price := current_price, entry_time := env.now,
                amount := invest_amount / current_price,
                signal_type := action, invest_amount := invest_amount }
            let row : TradeRow :=
              { timestamp := env.now, coin := ticker, action := .BUY,
                signal_type := action, price := current_price,
                amount := invest_amount / current_price,
                market_state := env.signal_context.market_state,
                rsi := env.signal_context.rsi,
                bollinger_position := env.signal_context.bollinger_position }
            (true,
             { st with positions := st.positions.insert ticker pos,
                       trade_count_today := st.trade_count_today + 1,
                       trades := record_trade st.trades row })
          else (false, st)
        else if action.isSell then
          match st.positions.lookup ticker with
          | none => (false, st)
          | some position =>
            if 1 / 100000 < env.coin_balance ∧ env.order_ok then
              let profit_rate :=
                profitRate position.entry_price current_price
                  env.commission_rate
              let profit_amount := position.invest_amount * profit_rate
              let hold_duration := env.now - position.entry_time
              (true,
               { st with
                 trade_count_today := st.trade_count_today + 1,
                 daily_profit := st.daily_profit + profit_amount,
                 trades := update_trade_result st.trades ticker
                   position.entry_time (decide (0 < profit_rate)) profit_rate
                   hold_duration,
                 positions := st.positions.erase ticker })
            else (false, st)
        else (false, st)

/-- `TradingEngine.execute_trade(ticker, action)` in full: the
calendar-rollover check runs first (`_reset_daily_data` when the day
changed), then the guarded execution above. -/
def execute_trade (env : TradeEnv) (st0 : EngineState) (ticker : String)
    (action : Signal) : Bool × EngineState :=
  execute_trade_after_reset env
    (if env.today ≠ st0.last_trade_reset then reset_daily_data env.today st0
     else st0) ticker action

/-! ## Exchange-order mirroring
(`real_upbit_analyzer.UpbitDataSyncManager.sync_trading_history`) -/

/-- One completed order as pulled from the exchange and stored in the
`upbit_orders` table (`uuid` is the table's PRIMARY KEY; the remaining
numeric/raw columns are irrelevant to the dedup behaviour and abbreviated). -/
structure UpbitOrder where
  uuid : String
  market : String
  side : String
  price : ℚ
  volume : ℚ
  created_at : ℕ
deriving DecidableEq, Repr

/-- The per-order body of `sync_trading_history`'s loop:
`SELECT uuid FROM upbit_orders WHERE uuid = ?` — skip when a row exists,
`INSERT` otherwise. -/
def insertOrderIfAbsent (mirror : List UpbitOrder) (o : UpbitOrder) :
    List UpbitOrder :=
  if List.any mirror (fun r => r.uuid = o.uuid) then mirror
  else mirror ++ [o]

/-- One reconciliation pass of `sync_trading_history`: the pulled result
set (all markets' completed orders, concatenated in iteration order) folded
into the mirror one order at a time. -/
def sync_trading_history (orders : List UpbitOrder)
    (mirror : List UpbitOrder) : List UpbitOrder :=
  orders.foldl insertOrderIfAbsent mirror

/-- Successive reconciliation passes. -/
def syncPasses (passes : List (List UpbitOrder))
    (mirror : List UpbitOrder) : List UpbitOrder :=
  passes.foldl (fun m p => sync_trading_history p m) mirror

/-- Number of mirrored rows carrying a given external order id. -/
def countUuid (mirror : List UpbitOrder) (u : String) : ℕ :=
  (List.filter (fun r => r.uuid = u) mirror).length

/-! ## Concrete fixtures used by counterexamples and witnesses -/

/-- A strictly falling close-price series of length 50 (most recent last):
the 5-sample average sits below the 10-sample average, which sits below the
20-sample average. -/
def fallingPrices : List ℚ :=
  [50, 49, 48, 47, 46, 45, 44, 43, 42, 41,
   40, 39, 38, 37, 36, 35, 34, 33, 32, 31,
   30, 29, 28, 27, 26, 25, 24, 23, 22, 21,
   20, 19, 18, 17, 16, 15, 14, 13, 12, 11,
   10, 9, 8, 7, 6, 5, 4, 3, 2, 1]

/-- A closed, profitable BUY record whose `rsi` equals the default
`rsi_buy_threshold` (30) and whose `bollinger_position` is falsy (0). -/
def closedBuyAtThreshold : TradeRow :=
  { timestamp := 1, coin := "KRW-BTC", action := .BUY,
    signal_type := .PREMIUM_BUY, price := 100, amount := 1,
    market_state := .BULL, rsi := 30, bollinger_position := 0,
    success := some true, profit_rate := some (1 / 100),
    hold_duration := some 60 }

/-- An open position held since minute 5 at entry price 90. -/
def openPosition : Position := ⟨90, 5, 1, .PREMIUM_BUY, 9000⟩

/-- An engine state holding `openPosition` for KRW-BTC, reset on day 0. -/
def openState : EngineState := ⟨[("KRW-BTC", openPosition)], 0, 0, 0, []⟩

/-- A benign execution environment on day 0: price 100, ample balance,
orders succeed. -/
def benignEnv : TradeEnv :=
  { today := 0, now := 10, current_price := some 100, krw_balance := 100000,
    coin_balance := 1, order_ok := true,
    signal_context := ⟨.BULL, 25, 0.15⟩ }

/-! ## C2 — realized profit rate of a closing SELL -/

/-- The code's computation coincides with the spec's closed-form formula
(identically, as rational functions — in particular it is deterministic in
the three inputs). -/
theorem profitRate_eq_spec (entry_price current_price fee : ℚ) :
    profitRate entry_price current_price fee =
      specProfitRate current_price entry_price fee := rfl

/-- C2: for every successful SELL that closes a position, the profit rate
written into the trade record (via `update_trade_result`) is exactly
`(sellPrice·(1−fee) − buyPrice·(1+fee)) / (buyPrice·(1+fee))` with
`buyPrice` the position's entry price, `sellPrice` the current price and
`fee` the configured commission rate; it is a pure function of these
inputs. -/
theorem sell_records_spec_profit_rate
    (env : TradeEnv) (st : EngineState) (ticker : String) (action : Signal)
    (cp : ℚ) (position : Position)
    (hday : env.today = st.last_trade_reset)
    (hcap : st.trade_count_today < env.max_daily_trades)
    (hcp : env.current_price = some cp) (hcp0 : cp ≠ 0)
    (hmin : env.min_krw_balance ≤ env.krw_balance)
    (hsell : action.isSell = true)
    (hpos : st.positions.lookup ticker = some position)
    (hcoin : 1 / 100000 < env.coin_balance) (hord : env.order_ok = true) :
    (execute_trade env st ticker action).1 = true ∧
    (execute_trade env st ticker action).2.trades =
      update_trade_result st.trades ticker position.entry_time
        (decide (0 < specProfitRate cp position.entry_price
          env.commission_rate))
        (specProfitRate cp position.entry_price env.commission_rate)
        (env.now - position.entry_time) := by
  have hbuy : action.isBuy = false := by
    cases action <;> simp_all [Signal.isSell, Signal.isBuy]
  have hpr : profitRate position.entry_price cp env.commission_rate =
      specProfitRate cp position.entry_price env.commission_rate := rfl
  unfold execute_trade execute_trade_after_reset
  rw [hcp]
  have hcoin2 : (100000 : ℚ)⁻¹ < env.coin_balance := by
    rw [← one_div]; exact hcoin
  simp [hday, Nat.not_le.mpr hcap, hcp0, not_lt.mpr hmin, hbuy, hsell, hpos,
    hcoin2, hord, hpr]

/-- Witness for C2: a concrete successful SELL on `openState`. -/
theorem sell_records_spec_profit_rate_witness :
    (execute_trade benignEnv openState "KRW-BTC" .EMERGENCY_SELL).1 = true ∧
    (execute_trade benignEnv openState "KRW-BTC" .EMERGENCY_SELL).2.trades =
      update_trade_result openState.trades "KRW-BTC"
        openPosition.entry_time
        (decide (0 < specProfitRate 100 openPosition.entry_price
          benignEnv.commission_rate))
        (specProfitRate 100 openPosition.entry_price
          benignEnv.commission_rate)
        (benignEnv.now - openPosition.entry_time) :=
  sell_records_spec_profit_rate benignEnv openState "KRW-BTC"
    .EMERGENCY_SELL 100 openPosition rfl (by decide) rfl (by norm_num)
    (by norm_num [benignEnv, openState]) rfl
    (by simp [openState, openPosition, Positions.lookup, List.find?])
    (by norm_num [benignEnv]) rfl

/-! ## C8 — market-context extraction fails soft -/

/-- C8: whenever the price-data fetch fails (the code catches the
exception) or the fetched history is shorter than 50 samples,
`get_signal_context` returns the sentinel `{UNKNOWN, 50, 0.5}`.  The
embedding is a total function, so no exception ever reaches the caller. -/
theorem get_signal_context_fails_soft (fetch : Option (List ℚ)) (std20 : ℚ)
    (h : fetch = none ∨ ∃ ps, fetch = some ps ∧ ps.length < 50) :
    get_signal_context fetch std20 =
      { market_state := .UNKNOWN, rsi := 50, bollinger_position := 0.5 } := by
  rcases h with h | ⟨ps, hps, hlen⟩
  · subst h; rfl
  · subst hps; simp [get_signal_context, hlen]

/-- Witness for C8: the failed-fetch case at a concrete input. -/
theorem get_signal_context_fails_soft_witness :
    get_signal_context none 0 =
      { market_state := .UNKNOWN, rsi := 50, bollinger_position := 0.5 } :=
  get_signal_context_fails_soft none 0 (Or.inl rfl)

/-! ## C10 — trade-outcome finalization is write-once -/

/-- C10: `update_trade_result` only touches rows whose `success` is still
NULL, so a row whose outcome fields have been set survives every later
`update_trade_result` call unchanged (any coin, timestamp and outcome
arguments). -/
theorem update_trade_result_write_once
    (table : List TradeRow) (i : ℕ) (r : TradeRow)
    (hget : table.get? i = some r) (hdone : r.success ≠ none)
    (coin : String) (ts : ℕ) (s : Bool) (pr : ℚ) (hd : ℕ) :
    (update_trade_result table coin ts s pr hd).get? i = some r := by
  unfold update_trade_result
  rw [List.get?_map, hget]
  simp [hdone]

/-- Witness for C10: a finalized row is untouched by a further matching
update call. -/
theorem update_trade_result_write_once_witness :
    (update_trade_result [closedBuyAtThreshold] "KRW-BTC" 1 false (-1) 7).get? 0 =
      some closedBuyAtThreshold :=
  update_trade_result_write_once [closedBuyAtThreshold] 0 closedBuyAtThreshold
    rfl (by simp [closedBuyAtThreshold]) "KRW-BTC" 1 false (-1) 7

/-! ## C6 — feedback loop is a no-op on insufficient samples -/

/-- C6: when fewer closed trades than the minimum sample size fall inside
the lookback window (in particular when there are none), a feedback-loop
run leaves the in-memory parameters and the persisted parameter store
exactly as they were. -/
theorem feedback_noop_on_insufficient_samples
    (min_trades : ℕ) (table : List TradeRow) (since now : ℕ)
    (st : LearningState)
    (h : (closedTradesSince table since).length < min_trades) :
    perform_learning min_trades table since now st = st := by
  have htot : (analyzeRecentPerformance table since).total_trades =
      (closedTradesSince table since).length := rfl
  unfold perform_learning optimize_parameters
  simp [htot, h, Optimized.nonempty]

/-- Witness for C6: zero closed trades, default minimum sample size 10. -/
theorem feedback_noop_on_insufficient_samples_witness :
    perform_learning 10 [] 0 42 ⟨defaultParams, []⟩ = ⟨defaultParams, []⟩ :=
  feedback_noop_on_insufficient_samples 10 [] 0 42 ⟨defaultParams, []⟩
    (by decide)

/-! ## C5 — market-state classification -/

/-- Counterexample to C5 as stated: on a falling price series the 5/10/20
sample averages are strictly increasing (short < medium < long), yet the
code classifies the market as BEAR, not BULL. -/
theorem market_state_increasing_counterexample :
    listMean (lastN fallingPrices 5) < listMean (lastN fallingPrices 10) ∧
    listMean (lastN fallingPrices 10) < listMean (lastN fallingPrices 20) ∧
    (get_signal_context (some fallingPrices) 1).market_state = .BEAR ∧
    (get_signal_context (some fallingPrices) 1).market_state ≠ .BULL := by
  have hctx : (get_signal_context (some fallingPrices) 1).market_state =
      .BEAR := by
    norm_num [fallingPrices, listMean, lastN, get_signal_context,
      classifyMarket]
  refine ⟨?_, ?_, hctx, by rw [hctx]; decide⟩ <;>
    norm_num [fallingPrices, listMean, lastN]

/-- C5 as amended: the classification compares the 5-, 10- and 20-sample
moving averages, but with the opposite orientation to the claim's wording —
BULL exactly when the averages are strictly decreasing in short/medium/long
order (`ma5 > ma10 > ma20`, the short average on top), BEAR exactly when
they are strictly increasing (`ma5 < ma10 < ma20`), and SIDEWAYS in every
other case. -/
theorem market_state_classification (ps : List ℚ) (std20 : ℚ)
    (h : ¬ ps.length < 50) :
    (get_signal_context (some ps) std20).market_state =
      classifyMarket (listMean (lastN ps 5)) (listMean (lastN ps 10))
        (listMean (lastN ps 20)) ∧
    (∀ ma5 ma10 ma20 : ℚ,
      (classifyMarket ma5 ma10 ma20 = .BULL ↔
        ma10 < ma5 ∧ ma20 < ma10) ∧
      (classifyMarket ma5 ma10 ma20 = .BEAR ↔
        ma5 < ma10 ∧ ma10 < ma20) ∧
      (classifyMarket ma5 ma10 ma20 = .SIDEWAYS ↔
        ¬(ma10 < ma5 ∧ ma20 < ma10) ∧ ¬(ma5 < ma10 ∧ ma10 < ma20))) := by
  constructor
  · simp [get_signal_context, h]
  · intro a b c
    unfold classifyMarket
    split_ifs with h1 h2
    · exact ⟨iff_of_true rfl ⟨h1.1, h1.2⟩,
        iff_of_false (by decide) (by rintro ⟨h3, h4⟩; linarith [h1.1]),
        iff_of_false (by decide) (fun hc => hc.1 ⟨h1.1, h1.2⟩)⟩
    · exact ⟨iff_of_false (by decide) (by rintro ⟨h3, h4⟩; linarith [h2.1]),
        iff_of_true rfl ⟨h2.1, h2.2⟩,
        iff_of_false (by decide) (fun hc => hc.2 ⟨h2.1, h2.2⟩)⟩
    · exact ⟨iff_of_false (by decide) (fun hc => h1 ⟨hc.1, hc.2⟩),
        iff_of_false (by decide) (fun hc => h2 ⟨hc.1, hc.2⟩),
        iff_of_true rfl ⟨fun hc => h1 ⟨hc.1, hc.2⟩,
          fun hc => h2 ⟨hc.1, hc.2⟩⟩⟩

/-- Witness for the amended C5: the classification agreement at the
concrete falling series, and the BEAR characterisation at the concrete
averages 3 < 5.5 < 10.5 of that series. -/
theorem market_state_classification_witness :
    (get_signal_context (some fallingPrices) 1).market_state =
      classifyMarket (listMean (lastN fallingPrices 5))
        (listMean (lastN fallingPrices 10))
        (listMean (lastN fallingPrices 20)) ∧
    (classifyMarket 3 (11 / 2) (21 / 2) = .BEAR ↔
      (3 : ℚ) < 11 / 2 ∧ (11 / 2 : ℚ) < 21 / 2) :=
  ⟨(market_state_classification fallingPrices 1 (by decide)).1,
   ((market_state_classification fallingPrices 1 (by decide)).2
      3 (11 / 2) (21 / 2)).2.1⟩

/-! ## C7 — when the feedback loop persists a snapshot -/

/-- Counterexample to C7 as stated: ten closed profitable BUYs whose RSI
all equal the current threshold (30) make the loop recompute
`rsi_buy_threshold` to exactly its current value — no parameter changes —
yet a snapshot is still appended to the parameter store. -/
theorem feedback_persists_unchanged_params_counterexample :
    (perform_learning 10 (List.replicate 10 closedBuyAtThreshold) 0 99
      ⟨defaultParams, []⟩).params = defaultParams ∧
    (perform_learning 10 (List.replicate 10 closedBuyAtThreshold) 0 99
      ⟨defaultParams, []⟩).store ≠ [] := by
  constructor <;>
    norm_num [perform_learning, analyzeRecentPerformance, closedTradesSince,
      optimize_parameters, Optimized.nonempty, applyOptimized, successInt,
      defaultParams, closedBuyAtThreshold, List.replicate, clamp, pyRound,
      pyRoundInt, List.filter_cons, List.filter_nil, Option.some_ne_none,
      Option.some.injEq]

/-- C7 as amended: a feedback run appends (never edits) at most one new
snapshot to the parameter store, and it appends one exactly when at least
one tuned dimension was recomputed this run (i.e. the optimizer emitted a
value for it) — even if that recomputed value coincides with the current
one. -/
theorem feedback_persists_iff_dimension_computed
    (min_trades : ℕ) (table : List TradeRow) (since now : ℕ)
    (st : LearningState) :
    ((perform_learning min_trades table since now st).store = st.store ∨
      (perform_learning min_trades table since now st).store =
        st.store ++
          [(now, (perform_learning min_trades table since now st).params)]) ∧
    ((perform_learning min_trades table since now st).store ≠ st.store ↔
      (optimize_parameters min_trades (analyzeRecentPerformance table since)
        st.params).nonempty = true) := by
  unfold perform_learning
  by_cases h : (optimize_parameters min_trades
      (analyzeRecentPerformance table since) st.params).nonempty
  · have hne : st.store ++ [(now, applyOptimized st.params
        (optimize_parameters min_trades
          (analyzeRecentPerformance table since) st.params))] ≠ st.store := by
      intro hc
      have hlen := congrArg List.length hc
      simp at hlen
    simp [h, hne]
  · simp [h]

/-! ## C3 — resync is idempotent on the order mirror -/

/-- Appending one row adds to the per-uuid count exactly when the row
carries that uuid. -/
lemma countUuid_append_single (m : List UpbitOrder) (o : UpbitOrder)
    (u : String) :
    countUuid (m ++ [o]) u =
      countUuid m u + (if o.uuid = u then 1 else 0) := by
  simp only [countUuid, List.filter_append]
  by_cases h : o.uuid = u <;> simp [h]

/-- The per-uuid count is positive iff some row carries the uuid. -/
lemma countUuid_pos_iff (m : List UpbitOrder) (u : String) :
    0 < countUuid m u ↔ ∃ r ∈ m, r.uuid = u := by
  simp [countUuid, List.length_pos, List.filter_eq_nil]

/-- One `insert-if-absent` step: it never pushes the per-uuid count above
one, it keeps a count of one at one, and it leaves the count at exactly one
whenever the inserted order carries the uuid. -/
lemma insertOrderIfAbsent_count (m : List UpbitOrder) (o : UpbitOrder)
    (u : String) (h : countUuid m u ≤ 1) :
    countUuid (insertOrderIfAbsent m o) u ≤ 1 ∧
    (countUuid m u = 1 → countUuid (insertOrderIfAbsent m o) u = 1) ∧
    (o.uuid = u → countUuid (insertOrderIfAbsent m o) u = 1) := by
  unfold insertOrderIfAbsent
  by_cases hany : (List.any m fun r => r.uuid = o.uuid) = true
  · rw [if_pos hany]
    refine ⟨h, fun h1 => h1, fun huu => ?_⟩
    have hex : ∃ r ∈ m, r.uuid = u := by
      simp only [List.any_eq_true, decide_eq_true_eq] at hany
      rcases hany with ⟨r, hr, hru⟩
      exact ⟨r, hr, hru.trans huu⟩
    have := (countUuid_pos_iff m u).mpr hex
    omega
  · rw [if_neg hany, countUuid_append_single]
    by_cases huu : o.uuid = u
    · have hz : countUuid m u = 0 := by
        by_contra hz
        rcases (countUuid_pos_iff m u).mp (Nat.pos_of_ne_zero hz) with
          ⟨r, hr, hru⟩
        refine hany ?_
        simp only [List.any_eq_true, decide_eq_true_eq]
        exact ⟨r, hr, hru.trans huu.symm⟩
      rw [if_pos huu, hz]
      exact ⟨le_refl 1, fun h1 => by omega, fun _ => rfl⟩
    · rw [if_neg huu, Nat.add_zero]
      exact ⟨h, fun h1 => h1, fun hc => absurd hc huu⟩

/-- One full reconciliation pass: the count stays at most one, a count of
one is preserved, and the count is exactly one afterwards whenever the
pulled result set contains the uuid. -/
lemma sync_trading_history_count (orders m : List UpbitOrder) (u : String)
    (h : countUuid m u ≤ 1) :
    countUuid (sync_trading_history orders m) u ≤ 1 ∧
    (countUuid m u = 1 →
      countUuid (sync_trading_history orders m) u = 1) ∧
    ((∃ o ∈ orders, o.uuid = u) →
      countUuid (sync_trading_history orders m) u = 1) := by
  induction orders generalizing m with
  | nil =>
    refine ⟨h, fun h1 => h1, ?_⟩
    rintro ⟨o, ho, -⟩
    exact absurd ho (List.not_mem_nil o)
  | cons o os ih =>
    have hstep := insertOrderIfAbsent_count m o u h
    have ihm := ih (insertOrderIfAbsent m o) hstep.1
    refine ⟨ihm.1, fun h1 => ihm.2.1 (hstep.2.1 h1), ?_⟩
    rintro ⟨o2, ho2, huu⟩
    rcases List.mem_cons.mp ho2 with rfl | hmem
    · exact ihm.2.1 (hstep.2.2 huu)
    · exact ihm.2.2 ⟨o2, hmem, huu⟩

/-- Once the mirror holds exactly one row for a uuid, any further passes
keep exactly one. -/
lemma syncPasses_keeps_one (passes : List (List UpbitOrder))
    (m : List UpbitOrder) (u : String) (h : countUuid m u = 1) :
    countUuid (syncPasses passes m) u = 1 := by
  induction passes generalizing m with
  | nil => exact h
  | cons p ps ih =>
    exact ih _ ((sync_trading_history_count p m u h.le).2.1 h)

/-- C3: starting from a mirror holding at most one row for an external
order id (in particular from an empty mirror), after any positive number of
reconciliation passes whose pulled result sets each contain that id, the
mirrored `upbit_orders` table holds exactly one row with that id. -/
theorem sync_mirror_dedups_order_id (mirror : List UpbitOrder)
    (passes : List (List UpbitOrder)) (u : String)
    (h0 : countUuid mirror u ≤ 1) (hne : passes ≠ [])
    (hall : ∀ p ∈ passes, ∃ o ∈ p, o.uuid = u) :
    countUuid (syncPasses passes mirror) u = 1 := by
  cases passes with
  | nil => exact absurd rfl hne
  | cons p ps =>
    have h1 : countUuid (sync_trading_history p mirror) u = 1 :=
      (sync_trading_history_count p mirror u h0).2.2
        (hall p (List.mem_cons_self p ps))
    exact syncPasses_keeps_one ps _ u h1

/-- A concrete completed order. -/
def sampleOrder : UpbitOrder :=
  { uuid := "9ca943a0", market := "KRW-BTC", side := "bid",
    price := 100, volume := 1, created_at := 1 }

/-- Witness for C3: two successive passes both pulling `sampleOrder` leave
exactly one mirrored row for its uuid. -/
theorem sync_mirror_dedups_order_id_witness :
    countUuid (syncPasses [[sampleOrder], [sampleOrder]] []) "9ca943a0" = 1 :=
  sync_mirror_dedups_order_id [] [[sampleOrder], [sampleOrder]] "9ca943a0"
    (by simp [countUuid]) (by simp)
    (by rintro p hp
        rcases List.mem_cons.mp hp with rfl | hp2
        · exact ⟨sampleOrder, by simp, rfl⟩
        · rcases List.mem_cons.mp hp2 with rfl | hp3
          · exact ⟨sampleOrder, by simp, rfl⟩
          · exact absurd hp3 (List.not_mem_nil p))

/-! ## C1 / C9 — position-ledger shape under `execute_trade` -/

/-- Every branch of the guarded execution leaves the positions dict equal to
the incoming one, to the incoming one with `ticker` overwritten/added, or to
the incoming one with `ticker` deleted. -/
lemma execute_trade_after_reset_positions (env : TradeEnv) (st : EngineState)
    (ticker : String) (action : Signal) :
    (execute_trade_after_reset env st ticker action).2.positions =
      st.positions ∨
    (∃ v, (execute_trade_after_reset env st ticker action).2.positions =
      st.positions.insert ticker v) ∨
    (execute_trade_after_reset env st ticker action).2.positions =
      st.positions.erase ticker := by
  unfold execute_trade_after_reset
  repeat' split
  all_goals dsimp only
  repeat' split
  all_goals first
    | (left; rfl)
    | (right; left; exact ⟨_, rfl⟩)
    | (right; right; rfl)

/-- Replacing the value stored at a key leaves every per-key entry count
unchanged (the keys of the list are untouched). -/
lemma countKey_map_replace (ps : Positions) (k : String) (v : Position)
    (k2 : String) :
    Positions.countKey
      (List.map (fun p => if p.1 = k then (k, v) else p) ps) k2 =
      ps.countKey k2 := by
  induction ps with
  | nil => rfl
  | cons p ps ih =>
    simp only [Positions.countKey, List.map_cons, List.filter_cons] at *
    by_cases hp : p.1 = k
    · rw [if_pos hp]
      by_cases hk : k = k2
      · subst hk
        simp [hp, ih]
      · have hpk2 : ¬ p.1 = k2 := by rw [hp]; exact hk
        simp [hk, hpk2, ih]
    · rw [if_neg hp]
      by_cases hk2 : p.1 = k2 <;> simp [hk2, ih]

/-- Appending a single binding adds one to the count of its key only. -/
lemma countKey_append_single (ps : Positions) (k : String) (v : Position)
    (k2 : String) :
    Positions.countKey (ps ++ [(k, v)]) k2 =
      ps.countKey k2 + (if k = k2 then 1 else 0) := by
  simp only [Positions.countKey, List.filter_append]
  by_cases h : k = k2 <;> simp [h]

/-- A key that fails the membership test has count zero. -/
lemma countKey_eq_zero_of_not_any (ps : Positions) (k : String)
    (h : ¬(List.any ps fun p => p.1 = k) = true) :
    ps.countKey k = 0 := by
  simp only [List.any_eq_true, decide_eq_true_eq, not_exists] at h
  simp only [Positions.countKey, List.length_eq_zero, List.filter_eq_nil,
    decide_eq_true_eq]
  intro p hp
  intro hpk
  exact (h p) ⟨hp, hpk⟩

/-- Python-dict assignment preserves "at most one entry per key". -/
lemma countKey_insert_le (ps : Positions) (k : String) (v : Position)
    (k2 : String) (h : ps.countKey k2 ≤ 1) :
    (ps.insert k v).countKey k2 ≤ 1 := by
  unfold Positions.insert
  by_cases hany : (List.any ps fun p => p.1 = k) = true
  · rw [if_pos hany, countKey_map_replace]; exact h
  · rw [if_neg hany, countKey_append_single]
    by_cases hk : k = k2
    · subst hk
      rw [if_pos rfl, countKey_eq_zero_of_not_any ps k hany]
    · rw [if_neg hk]
      omega

/-- Deletion preserves "at most one entry per key". -/
lemma countKey_erase_le (ps : Positions) (k k2 : String)
    (h : ps.countKey k2 ≤ 1) :
    (ps.erase k).countKey k2 ≤ 1 := by
  refine le_trans ?_ h
  exact List.Sublist.length_le
    (List.Sublist.filter _ (List.filter_sublist ps))

/-- Looking up the key just assigned returns the assigned value. -/
lemma lookup_insert (ps : Positions) (k : String) (v : Position) :
    (ps.insert k v).lookup k = some v := by
  unfold Positions.insert
  by_cases hany : (List.any ps fun p => p.1 = k) = true
  · rw [if_pos hany]
    simp only [List.any_eq_true, decide_eq_true_eq] at hany
    unfold Positions.lookup
    induction ps with
    | nil => exact absurd hany (by simp)
    | cons p ps ih =>
      by_cases hp : p.1 = k
      · simp [List.find?_cons, hp]
      · have h2 : ∃ q ∈ ps, q.1 = k := by
          rcases hany with ⟨q, hq, hqk⟩
          rcases List.mem_cons.mp hq with rfl | hq2
          · exact absurd hqk hp
          · exact ⟨q, hq2, hqk⟩
        simpa [List.find?_cons, hp] using ih h2
  · rw [if_neg hany]
    have hnone : List.find? (fun p => p.1 = k) ps = none := by
      rw [List.find?_eq_none]
      intro p hp
      simp only [decide_eq_true_eq]
      intro hpk
      exact hany (List.any_eq_true.mpr ⟨p, hp, by simp [hpk]⟩)
    unfold Positions.lookup
    rw [List.find?_append, hnone]
    simp [List.find?_cons]

/-- C1 as amended: positions are keyed by instrument, so at most one
tracked Position per instrument ever exists — `execute_trade` preserves the
at-most-one-entry-per-key invariant of the dict — but a BUY is *not*
rejected while a position is OPEN: whenever a BUY executes successfully
(open position or not), the position stored for the instrument afterwards
is the freshly built one (entry at the current price and time), replacing
any previously open position rather than being refused. -/
theorem at_most_one_position_per_instrument
    (env : TradeEnv) (st : EngineState) (ticker : String) (action : Signal)
    (h : ∀ k, st.positions.countKey k ≤ 1) :
    (∀ k, (execute_trade env st ticker action).2.positions.countKey k ≤ 1) ∧
    (∀ cp, env.current_price = some cp → action.isBuy = true →
      (execute_trade env st ticker action).1 = true →
      (execute_trade env st ticker action).2.positions.lookup ticker =
        some ⟨cp, env.now, env.krw_balance * env.investment_ratio / cp,
              action, env.krw_balance * env.investment_ratio⟩) := by
  constructor
  · intro k
    have h1 : ∀ k2,
        ((if env.today ≠ st.last_trade_reset then
          reset_daily_data env.today st else st)).positions.countKey k2 ≤ 1 := by
      intro k2
      split
      · simp [reset_daily_data, Positions.countKey]
      · exact h k2
    rcases execute_trade_after_reset_positions env
        (if env.today ≠ st.last_trade_reset then reset_daily_data env.today st
         else st) ticker action with hc | ⟨v, hc⟩ | hc
    · rw [execute_trade, hc]; exact h1 k
    · rw [execute_trade, hc]; exact countKey_insert_le _ _ _ _ (h1 k)
    · rw [execute_trade, hc]; exact countKey_erase_le _ _ _ (h1 k)
  · intro cp hcp hbuy hsucc
    rw [execute_trade] at hsucc ⊢
    unfold execute_trade_after_reset at hsucc ⊢
    simp only [hcp] at hsucc ⊢
    by_cases h1 : env.max_daily_trades ≤
        (if env.today ≠ st.last_trade_reset then reset_daily_data env.today st
         else st).trade_count_today
    · simp only [if_pos h1] at hsucc
      simp at hsucc
    · simp only [if_neg h1] at hsucc ⊢
      by_cases h2 : cp = 0
      · simp only [if_pos h2] at hsucc
        simp at hsucc
      · simp only [if_neg h2] at hsucc ⊢
        by_cases h3 : env.krw_balance < env.min_krw_balance
        · simp only [if_pos h3] at hsucc
          simp at hsucc
        · simp only [if_neg h3] at hsucc ⊢
          rw [if_pos hbuy] at hsucc ⊢
          by_cases h4 : env.krw_balance * env.investment_ratio ≤
              env.krw_balance ∧ env.order_ok = true
          · rw [if_pos h4]
            exact lookup_insert _ _ _
          · rw [if_neg h4] at hsucc
            simp at hsucc

/-- Witness for the amended C1: a successful BUY on a state already holding
an open KRW-BTC position replaces it and keeps one entry per key. -/
theorem at_most_one_position_per_instrument_witness :
    (execute_trade benignEnv openState "KRW-BTC"
      .PREMIUM_BUY).2.positions.countKey "KRW-BTC" ≤ 1 ∧
    (execute_trade benignEnv openState "KRW-BTC"
      .PREMIUM_BUY).2.positions.lookup "KRW-BTC" =
      some ⟨100, benignEnv.now,
            benignEnv.krw_balance * benignEnv.investment_ratio / 100,
            .PREMIUM_BUY,
            benignEnv.krw_balance * benignEnv.investment_ratio⟩ :=
  ⟨(at_most_one_position_per_instrument benignEnv openState "KRW-BTC"
      .PREMIUM_BUY
      (by intro k
          simp only [openState, Positions.countKey, List.filter_cons,
            List.filter_nil]
          split <;> simp)).1 "KRW-BTC",
   (at_most_one_position_per_instrument benignEnv openState "KRW-BTC"
      .PREMIUM_BUY
      (by intro k
          simp only [openState, Positions.countKey, List.filter_cons,
            List.filter_nil]
          split <;> simp)).2 100 rfl rfl
      (by norm_num [execute_trade, execute_trade_after_reset,
        reset_daily_data, Signal.isBuy, benignEnv, openState,
        openPosition])⟩

/-- Counterexample to C1 as stated: with the default parameters and a
bullish context (RSI 25, band position 0.15), `generate_signal` emits
PREMIUM_BUY even though a position is open (`hasPosition = true`), and
executing that BUY while OPEN succeeds and replaces the tracked Position
(entry price 90 → 100) instead of being rejected. -/
theorem buy_not_rejected_while_open_counterexample :
    generate_signal defaultParams ⟨.BULL, 25, 0.15⟩ true = .PREMIUM_BUY ∧
    (execute_trade benignEnv openState "KRW-BTC" .PREMIUM_BUY).1 = true ∧
    (execute_trade benignEnv openState "KRW-BTC"
      .PREMIUM_BUY).2.positions.lookup "KRW-BTC" =
      some ⟨100, 10, 100, .PREMIUM_BUY, 10000⟩ ∧
    (execute_trade benignEnv openState "KRW-BTC"
      .PREMIUM_BUY).2.positions.lookup "KRW-BTC" ≠ some openPosition := by
  refine ⟨?_, ?_, ?_, ?_⟩ <;>
    norm_num [generate_signal, defaultParams, execute_trade,
      execute_trade_after_reset, reset_daily_data, Signal.isBuy,
      Positions.insert, Positions.lookup, record_trade, benignEnv, openState,
      openPosition, List.find?, List.any]

/-- C9: every daily-reset path clears the whole positions dict and zeroes
both daily counters: `_reset_daily_data` itself, a snapshot load that fails
(missing file or exception) or finds a stale saved date, and the rollover
branch of `execute_trade` — after which at most the one position freshly
created by this very call (for the traded ticker) can be present, so no
previously open position survives a day boundary. -/
theorem daily_reset_clears_positions :
    (∀ today st, (reset_daily_data today st).positions = [] ∧
      (reset_daily_data today st).trade_count_today = 0 ∧
      (reset_daily_data today st).daily_profit = 0) ∧
    (∀ today trades, (load_trading_data today none trades).positions = [] ∧
      (load_trading_data today none trades).trade_count_today = 0 ∧
      (load_trading_data today none trades).daily_profit = 0) ∧
    (∀ today d trades, d.last_trade_reset ≠ today →
      (load_trading_data today (some d) trades).positions = [] ∧
      (load_trading_data today (some d) trades).trade_count_today = 0 ∧
      (load_trading_data today (some d) trades).daily_profit = 0) ∧
    (∀ env st ticker action, env.today ≠ st.last_trade_reset →
      (execute_trade env st ticker action).2.positions.length ≤ 1 ∧
      List.all (execute_trade env st ticker action).2.positions
        (fun p => p.1 = ticker) = true) := by
  refine ⟨fun today st => ⟨rfl, rfl, rfl⟩,
    fun today trades => ⟨rfl, rfl, rfl⟩,
    fun today d trades hne => ?_,
    fun env st ticker action hne => ?_⟩
  · simp [load_trading_data, hne, reset_daily_data]
  · have hres : (if env.today ≠ st.last_trade_reset then
        reset_daily_data env.today st else st).positions = [] := by
      rw [if_pos hne]; rfl
    rcases execute_trade_after_reset_positions env
        (if env.today ≠ st.last_trade_reset then reset_daily_data env.today st
         else st) ticker action with hc | ⟨v, hc⟩ | hc <;>
      rw [execute_trade, hc, hres]
    · simp
    · simp [Positions.insert, List.any_nil]
    · simp [Positions.erase]

/-- Witness for C9 at concrete inputs: a stale snapshot load and a
rollover `execute_trade` call (`benignEnv` is day 0, the state below was
last reset on day 3). -/
theorem daily_reset_clears_positions_witness :
    ((load_trading_data 2 (some ⟨7, 3, [("KRW-BTC", openPosition)], 5⟩)
        []).positions = [] ∧
      (load_trading_data 2 (some ⟨7, 3, [("KRW-BTC", openPosition)], 5⟩)
        []).trade_count_today = 0 ∧
      (load_trading_data 2 (some ⟨7, 3, [("KRW-BTC", openPosition)], 5⟩)
        []).daily_profit = 0) ∧
    ((execute_trade benignEnv
        { openState with last_trade_reset := 3 } "KRW-ETH"
        .SELECTIVE_BUY).2.positions.length ≤ 1 ∧
      List.all (execute_trade benignEnv
        { openState with last_trade_reset := 3 } "KRW-ETH"
        .SELECTIVE_BUY).2.positions (fun p => p.1 = "KRW-ETH") = true) :=
  ⟨daily_reset_clears_positions.2.2.1 2 ⟨7, 3, [("KRW-BTC", openPosition)], 5⟩
      [] (by decide),
   daily_reset_clears_positions.2.2.2 benignEnv
      { openState with last_trade_reset := 3 } "KRW-ETH" .SELECTIVE_BUY
      (by decide)⟩

/-! ## C4 — tuned parameters stay inside their safe ranges -/

/-- Half-to-even rounding never goes below an integer lower bound of its
argument. -/
lemma pyRoundInt_ge (a : ℤ) (q : ℚ) (h : (a : ℚ) ≤ q) :
    a ≤ pyRoundInt q := by
  have hfl : a ≤ ⌊q⌋ := Int.le_floor.mpr h
  unfold pyRoundInt
  dsimp only
  split_ifs <;> omega

/-- Half-to-even rounding never exceeds an integer upper bound of its
argument. -/
lemma pyRoundInt_le (b : ℤ) (q : ℚ) (h : q ≤ (b : ℚ)) :
    pyRoundInt q ≤ b := by
  have hfl : ⌊q⌋ ≤ b := by
    have h2 := Int.floor_le_floor h
    simpa using h2
  have hkey : ¬(q - ⌊q⌋ < 1 / 2) → ⌊q⌋ < b := by
    intro h1
    rcases lt_or_eq_of_le hfl with h4 | h4
    · exact h4
    · exfalso
      have hq : ((⌊q⌋ : ℤ) : ℚ) = (b : ℚ) := by exact_mod_cast h4
      push_neg at h1
      linarith
  unfold pyRoundInt
  dsimp only
  split_ifs with h1 h2 h3
  · exact hfl
  · have := hkey h1
    omega
  · exact hfl
  · have := hkey h1
    omega

/-- `pyRound` keeps values between integer bounds of the scaled argument. -/
lemma pyRound_bounds (n : ℕ) (a b : ℤ) (q : ℚ)
    (hl : (a : ℚ) ≤ q * 10 ^ n) (hu : q * 10 ^ n ≤ (b : ℚ)) :
    (a : ℚ) / 10 ^ n ≤ pyRound q n ∧ pyRound q n ≤ (b : ℚ) / 10 ^ n := by
  have hpos : (0 : ℚ) < 10 ^ n := by positivity
  have h1 := pyRoundInt_ge a _ hl
  have h2 := pyRoundInt_le b _ hu
  unfold pyRound
  constructor
  · exact (div_le_div_right hpos).mpr (by exact_mod_cast h1)
  · exact (div_le_div_right hpos).mpr (by exact_mod_cast h2)

/-- The safe-range clamp is idempotent (and total, being a function). -/
lemma clamp_idem (lo hi x : ℚ) :
    clamp lo hi (clamp lo hi x) = clamp lo hi x := by
  simp only [clamp, max_def, min_def]
  split_ifs <;> linarith

/-- The clamp lands inside `[lo, hi]` whenever `lo ≤ hi`. -/
lemma clamp_bounds (lo hi x : ℚ) (h : lo ≤ hi) :
    lo ≤ clamp lo hi x ∧ clamp lo hi x ≤ hi :=
  ⟨le_max_left lo _, max_le h (min_le_left hi x)⟩

/-- The recomputed RSI buy threshold is clamped-and-rounded into
`[20, 40]`. -/
lemma round1_clamp_range (y : ℚ) :
    20 ≤ pyRound (clamp 20 40 y) 1 ∧ pyRound (clamp 20 40 y) 1 ≤ 40 := by
  have hc := clamp_bounds 20 40 y (by norm_num)
  have hl : ((200 : ℤ) : ℚ) ≤ clamp 20 40 y * 10 ^ 1 := by
    push_cast
    nlinarith [hc.1]
  have hu : clamp 20 40 y * 10 ^ 1 ≤ ((400 : ℤ) : ℚ) := by
    push_cast
    nlinarith [hc.2]
  have hb := pyRound_bounds 1 200 400 _ hl hu
  constructor
  · have : ((200 : ℤ) : ℚ) / 10 ^ 1 = 20 := by norm_num
    linarith [hb.1]
  · have : ((400 : ℤ) : ℚ) / 10 ^ 1 = 40 := by norm_num
    linarith [hb.2]

/-- The recomputed Bollinger buy ratio is clamped-and-rounded into
`[0.1, 0.3]`. -/
lemma round2_clamp_range (y : ℚ) :
    0.1 ≤ pyRound (clamp 0.1 0.3 y) 2 ∧
    pyRound (clamp 0.1 0.3 y) 2 ≤ 0.3 := by
  have hc := clamp_bounds 0.1 0.3 y (by norm_num)
  have hl : ((10 : ℤ) : ℚ) ≤ clamp 0.1 0.3 y * 10 ^ 2 := by
    push_cast
    nlinarith [hc.1]
  have hu : clamp 0.1 0.3 y * 10 ^ 2 ≤ ((30 : ℤ) : ℚ) := by
    push_cast
    nlinarith [hc.2]
  have hb := pyRound_bounds 2 10 30 _ hl hu
  constructor
  · have : ((10 : ℤ) : ℚ) / 10 ^ 2 = 0.1 := by norm_num
    linarith [hb.1]
  · have : ((30 : ℤ) : ℚ) / 10 ^ 2 = 0.3 := by norm_num
    linarith [hb.2]

/-- Any RSI threshold the optimizer emits lies in `[20, 40]`. -/
lemma optimize_rsi_in_range (mt : ℕ) (perf : Performance)
    (p : AdaptiveParams) (v : ℚ)
    (h : (optimize_parameters mt perf p).rsi_buy_threshold = some v) :
    20 ≤ v ∧ v ≤ 40 := by
  unfold optimize_parameters at h
  split_ifs at h
  dsimp only at h
  split_ifs at h with h2
  injection h with h3
  rw [← h3]
  exact round1_clamp_range _

/-- Any Bollinger ratio the optimizer emits lies in `[0.1, 0.3]`. -/
lemma optimize_bollinger_in_range (mt : ℕ) (perf : Performance)
    (p : AdaptiveParams) (v : ℚ)
    (h : (optimize_parameters mt perf p).bollinger_buy_ratio = some v) :
    0.1 ≤ v ∧ v ≤ 0.3 := by
  unfold optimize_parameters at h
  split_ifs at h
  dsimp only at h
  split_ifs at h with h2
  injection h with h3
  rw [← h3]
  exact round2_clamp_range _

/-- The safe ranges of the two tuned dimensions the claim names. -/
def ParamsInRange (p : AdaptiveParams) : Prop :=
  20 ≤ p.rsi_buy_threshold ∧ p.rsi_buy_threshold ≤ 40 ∧
  0.1 ≤ p.bollinger_buy_ratio ∧ p.bollinger_buy_ratio ≤ 0.3

/-- A feedback-loop run keeps the tuned dimensions in range. -/
lemma perform_learning_preserves_range (mt : ℕ) (table : List TradeRow)
    (since now : ℕ) (st : LearningState) (h : ParamsInRange st.params) :
    ParamsInRange (perform_learning mt table since now st).params := by
  unfold perform_learning
  dsimp only
  split_ifs with ho
  · set o := optimize_parameters mt (analyzeRecentPerformance table since)
      st.params with hodef
    show ParamsInRange (applyOptimized st.params o)
    unfold applyOptimized ParamsInRange
    refine ⟨?_, ?_, ?_, ?_⟩
    · cases hr : o.rsi_buy_threshold with
      | none => simpa [hr] using h.1
      | some v =>
        simp only [hr, Option.getD_some]
        exact (optimize_rsi_in_range mt _ _ v (hodef ▸ hr)).1
    · cases hr : o.rsi_buy_threshold with
      | none => simpa [hr] using h.2.1
      | some v =>
        simp only [hr, Option.getD_some]
        exact (optimize_rsi_in_range mt _ _ v (hodef ▸ hr)).2
    · cases hb : o.bollinger_buy_ratio with
      | none => simpa [hb] using h.2.2.1
      | some v =>
        simp only [hb, Option.getD_some]
        exact (optimize_bollinger_in_range mt _ _ v (hodef ▸ hb)).1
    · cases hb : o.bollinger_buy_ratio with
      | none => simpa [hb] using h.2.2.2
      | some v =>
        simp only [hb, Option.getD_some]
        exact (optimize_bollinger_in_range mt _ _ v (hodef ▸ hb)).2
  · exact h

/-- The auto-optimizer's conservative adjustment keeps the tuned
dimensions in range. -/
lemma adjust_preserves_range (fr : ℚ) (p : AdaptiveParams)
    (h : ParamsInRange p) :
    ParamsInRange (adjust_signal_parameters fr p) := by
  unfold adjust_signal_parameters
  split_ifs with hf
  · exact ⟨le_min (by norm_num) (by linarith [h.1]),
      le_trans (min_le_left _ _) (by norm_num), h.2.2.1, h.2.2.2⟩
  · exact h

/-- One run of either parameter-mutating component: a feedback-loop pass
(`_perform_learning`) or an auto-optimizer adjustment
(`_adjust_signal_parameters`). -/
inductive TuningRun where
  | feedback (min_trades : ℕ) (table : List TradeRow) (since now : ℕ)
  | adjust (failed_ratio : ℚ)

/-- Apply one run to the learning state. -/
def applyRun (st : LearningState) : TuningRun → LearningState
  | .feedback mt table since now => perform_learning mt table since now st
  | .adjust fr => { st with params := adjust_signal_parameters fr st.params }

/-- Any finite sequence of runs, oldest first. -/
def runAll (runs : List TuningRun) (st : LearningState) : LearningState :=
  runs.foldl applyRun st

/-- C4: starting from the seeded defaults, after any finite number of
feedback-loop runs (interleaved with auto-optimizer adjustments, which also
write these fields) the tuned parameters stay inside their hard-coded safe
ranges — `rsi_buy_threshold ∈ [20, 40]`, `bollinger_buy_ratio ∈ [0.1, 0.3]`
— and the clamp applied on each update is idempotent (and total: it is a
function defined on all of ℚ). -/
theorem adaptive_params_stay_in_safe_range (runs : List TuningRun) :
    ParamsInRange (runAll runs ⟨defaultParams, []⟩).params ∧
    (∀ lo hi x : ℚ, clamp lo hi (clamp lo hi x) = clamp lo hi x) := by
  refine ⟨?_, fun lo hi x => clamp_idem lo hi x⟩
  have key : ∀ (rs : List TuningRun) (st : LearningState),
      ParamsInRange st.params → ParamsInRange (runAll rs st).params := by
    intro rs
    induction rs with
    | nil => exact fun st h => h
    | cons r rest ih =>
      intro st h
      refine ih (applyRun st r) ?_
      cases r with
      | feedback mt table since now =>
        exact perform_learning_preserves_range mt table since now st h
      | adjust fr => exact adjust_preserves_range fr st.params h
  exact key runs ⟨defaultParams, []⟩
    (by norm_num [ParamsInRange, defaultParams])

end AutoCoin
